import Mathlib

/-!
Verification development for the aws-slipstream-nodejs request-correlation
core: a shallow embedding of `src/express-requestid.ts` and
`src/cloudwatch-winston.ts` with theorems about the request-identifier
resolution, the log formatters, and context propagation.

JavaScript strings are modelled as Lean `String`s; the JS string operations
used by the source (`split` with a one-character separator and a limit,
`trim`) are given explicit structurally recursive models over `List Char`
so that every definition evaluates by `decide`.
-/

namespace Slipstream

/-- Model of ECMAScript `String.prototype.split` with a single-character
separator, over the character list of the string. `"a;;b"` splits to
`["a", "", "b"]` and `""` splits to `[""]`, as in JavaScript. -/
def splitCharList (sep : Char) : List Char → List (List Char)
  | [] => [[]]
  | c :: cs =>
    if c = sep then [] :: splitCharList sep cs
    else
      match splitCharList sep cs with
      | [] => [[c]]
      | f :: rest => (c :: f) :: rest

/-- JS `s.split(sep)` (no limit). -/
def jsSplit (sep : Char) (s : String) : List String :=
  (splitCharList sep s.data).map String.mk

/-- JS `s.split(sep, limit)`: like `jsSplit` but the result is truncated to
the first `limit` pieces. -/
def jsSplitLimit (sep : Char) (limit : Nat) (s : String) : List String :=
  (jsSplit sep s).take limit

/-- The ECMAScript `TrimString` whitespace set: the WhiteSpace production
(tab, vertical tab, form feed, space, no-break space, zero-width no-break
space, and the Unicode Space_Separator characters) together with the
LineTerminator code points (line feed, carriage return, line separator,
paragraph separator). -/
def jsWhitespace (c : Char) : Bool :=
  c = '\t' || c = '\n' || c = '\x0b' || c = '\x0c' || c = '\r' || c = ' '
    || c = '\xa0' || c = '\u1680'
    || ('\u2000' ≤ c && c ≤ '\u200a')
    || c = '\u2028' || c = '\u2029' || c = '\u202f' || c = '\u205f'
    || c = '\u3000' || c = '\ufeff'

/-- JS `String.prototype.trim`: strip leading and trailing characters of
the ECMAScript whitespace set. -/
def jsTrim (s : String) : String :=
  String.mk (((s.data.dropWhile jsWhitespace).reverse.dropWhile jsWhitespace).reverse)

/-- The `from` tag of a `RequestIdentifier`: the TypeScript union type
`'int' | 'aws'`. -/
inductive IdFrom where
  | int
  | aws
deriving DecidableEq, Repr

/-- The string literal a tag denotes in TypeScript. -/
def IdFrom.str : IdFrom → String
  | .int => "int"
  | .aws => "aws"

/-- Structure `RequestIdentifier` from `express-requestid.ts`: the source of the
request ID (`'aws'` for an upstream trace header, `'int'` for a locally
generated one) and the ID string itself. The TS field `from` is a Lean
keyword, hence `from_`. -/
structure RequestIdentifier where
  from_ : IdFrom
  id : String
deriving DecidableEq, Repr

/-- A value of `req.headers['x-amzn-trace-id']` in Express: absent, a single
string, or an array of strings (repeated header). -/
inductive HeaderValue where
  | absent
  | str (s : String)
  | arr (l : List String)
deriving DecidableEq, Repr

/-- The expression `[req.headers['x-amzn-trace-id']].flat()[0]` from
`getRequestId`: the header itself when it is a single string, the first
element when it is an array, `undefined` when absent or the array is empty. -/
def flatFirst : HeaderValue → Option String
  | .absent => none
  | .str s => some s
  | .arr l => l.head?

/-- Function `getRequestId` from `express-requestid.ts`: take the first header value;
if truthy, split it on `';'` (limit 2), take the first field, split that on
`'-'` (limit 3), and return the element at index 2 (`undefined` when there
are fewer than three hyphen-separated pieces). -/
def getRequestId (header : HeaderValue) : Option String :=
  let traceId := flatFirst header
  match traceId with
  | some traceId =>
    if traceId ≠ "" then
      let current := (jsSplitLimit ';' 2 traceId).headD ""
      let parts := jsSplitLimit '-' 3 current
      parts[2]?
    else
      none
  | none => none

/-- The request-structure computation inside `requestIdMiddleware`:
`if (requestId) {from: 'aws', id: requestId} else {from: 'int', id: uuid.v4()}`.
The JS truthiness test fails for both `undefined` and the empty string.
`uuidV4` stands for the value produced by the external `uuid.v4()` call. -/
def resolveRequestStructure (uuidV4 : String) (header : HeaderValue) : RequestIdentifier :=
  match getRequestId header with
  | some requestId =>
    if requestId ≠ "" then { from_ := .aws, id := requestId }
    else { from_ := .int, id := uuidV4 }
  | none => { from_ := .int, id := uuidV4 }

/-- The cls-hooked session namespace, as the formatter observes it: whether a
logical context is active, and the value stored under the key `"requestId"`
in the active context (absent when never set or no context). -/
structure Session where
  active : Bool
  requestId : Option RequestIdentifier
deriving DecidableEq, Repr

/-- The options record of `requestIdFormatter`. -/
structure RequestIDFormatterOptions where
  addToMessage : Bool
deriving DecidableEq, Repr

/-- The fields of the logform `info` record that `requestIdFormatter`
reads or writes: the message, and the two metadata entries `requestId` and
`requestIdString` it may attach (absent on a fresh record). -/
structure LogInfo where
  message : String
  requestId : Option RequestIdentifier
  requestIdString : Option String
deriving DecidableEq, Repr

/-- Formatter `requestIdFormatter` from `express-requestid.ts`, in state-passing form:
it receives the session namespace and the `info` record and returns both, so
that non-mutation of the session is expressed rather than assumed. Steps, as
in the source: start with `'[no-request]'`; default the options to
`addToMessage: false`; when the session is active and holds a `requestId`,
rebuild the display string `[from:id]` and set `info.requestId`; then either
prepend the display string to the message (`addToMessage` true) or record it
under `info.requestIdString`. -/
def requestIdFormatter (session : Session) (options : Option RequestIDFormatterOptions)
    (info : LogInfo) : Session × LogInfo :=
  let requestIdString := "[no-request]"
  let options : RequestIDFormatterOptions :=
    match options with
    | none => { addToMessage := false }
    | some o => o
  let (requestIdString, info) :=
    if session.active then
      match session.requestId with
      | some requestId =>
          ("[" ++ requestId.from_.str ++ ":" ++ requestId.id ++ "]",
           { info with requestId := some requestId })
      | none => (requestIdString, info)
    else
      (requestIdString, info)
  let info :=
    if options.addToMessage then
      { info with message := requestIdString ++ " " ++ info.message }
    else
      { info with requestIdString := some requestIdString }
  (session, info)

/-- The display string the formatter computes from a given session state:
`[from:id]` when the session is active and holds an identifier, and
`[no-request]` otherwise. -/
def requestIdStringOf (session : Session) : String :=
  if session.active then
    match session.requestId with
    | some requestId => "[" ++ requestId.from_.str ++ ":" ++ requestId.id ++ "]"
    | none => "[no-request]"
  else "[no-request]"

/-- The Express request object as the middleware sees it: the
`x-amzn-trace-id` header and the `requestId` field the middleware attaches. -/
structure Req where
  xAmznTraceId : HeaderValue
  requestId : Option RequestIdentifier
deriving DecidableEq, Repr

/-- The body of the function returned by `requestIdMiddleware`, run for one
request: `session.run` establishes a fresh, empty active context; the
request structure is resolved from the header (falling back to `uuid.v4()`,
modelled by the `uuidV4` argument); `session.set('requestId', ...)` stores
it in the context; and it is also placed on `req.requestId`. The returned
pair is the session state in which `next()` is invoked, together with the
mutated request object. -/
def requestIdMiddlewareRun (uuidV4 : String) (req : Req) : Session × Req :=
  let session : Session := { active := true, requestId := none }
  let requestStructure := resolveRequestStructure uuidV4 req.xAmznTraceId
  let session := { session with requestId := some requestStructure }
  let req := { req with requestId := some requestStructure }
  (session, req)

/-- The fields of the log record consumed by `cloudWatchFormatter` in
`cloudwatch-winston.ts`: the destructured named fields plus the `...rest`
bag, modelled as an association list from keys to already-serialized JSON
value texts. `requestId` is the rendered text interpolated into the line. -/
structure CWInfo where
  level : String
  message : String
  timestamp : String
  requestId : Option String
  stack : Option String
  meta : Option String
  rest : List (String × String)
deriving DecidableEq, Repr

/-- One serialized member of a JSON object: the quoted key, a colon, and the
already-serialized value text. -/
def jsonItem (p : String × String) : String := "\x22" ++ p.1 ++ "\x22:" ++ p.2

/-- The comma-separated member list of a serialized JSON object. -/
def jsonMembers : List (String × String) → String
  | [] => ""
  | [p] => jsonItem p
  | p :: rest => jsonItem p ++ "," ++ jsonMembers rest

/-- Model of `JSON.stringify` on the `rest` bag: braces around the
comma-separated quoted keys paired with their serialized values; the empty
bag serializes to the two-character brace pair, as in JavaScript. -/
def jsonStringify (l : List (String × String)) : String :=
  "\x7b" ++ jsonMembers l ++ "\x7d"

/-- Formatter `cloudWatchFormatter` from `cloudwatch-winston.ts`: drop `_headers` from
the rest bag, serialize the remainder (replaced by the empty string when it
serializes to an empty object), default a falsy `requestId` to
`no-request` and a falsy `stack` to the empty string, interpolate the
template, and trim the result. -/
def cloudWatchFormatter (info : CWInfo) : String :=
  let restTrimmed := info.rest.filter (fun p => p.1 ≠ "_headers")
  let restStr := jsonStringify restTrimmed
  let restStr := if restStr = "\x7b\x7d" then "" else restStr
  let requestIdStr :=
    match info.requestId with
    | some s => if s ≠ "" then s else "no-request"
    | none => "no-request"
  let stackStr :=
    match info.stack with
    | some s => if s ≠ "" then s else ""
    | none => ""
  jsTrim (info.timestamp ++ " [" ++ requestIdStr ++ "] " ++ info.level ++ ": "
    ++ info.message ++ " " ++ restStr ++ "\n" ++ stackStr)

/-!
Event-loop model for context propagation. cls-hooked attaches the active
logical context to every asynchronous continuation at the moment it is
scheduled and restores it when the continuation later runs. A request's
handler is a list of synchronous actions between suspension points: it can
emit a log record (which reads `requestId` from the store of the active
context, as `requestIdFormatter` does) or schedule a continuation (which
captures the active context). The event loop picks pending continuations in
an arbitrary order, so `LoopStep` is a nondeterministic relation.
-/

/-- A synchronous action of request-handling code: emit a log record, or
schedule an asynchronous continuation consisting of further actions. -/
inductive AsyncAct where
  | emitLog
  | schedule (cont : List AsyncAct)

/-- A pending continuation: the logical context captured at scheduling time
and the actions to run. -/
structure Task where
  ctx : Nat
  acts : List AsyncAct

/-- Event-loop state: the per-context store (context id to the value set
under `"requestId"` in that context), the pending continuations, and the
log records emitted so far, each tagged with the emitting context and the
identifier the formatter read from the store at emission time. -/
structure LoopState where
  store : List (Nat × RequestIdentifier)
  tasks : List Task
  logs : List (Nat × Option RequestIdentifier)

/-- Run a list of synchronous actions with context `ctx` active: emitting a
log appends a record tagged with `ctx` and the store value visible in `ctx`;
scheduling appends a pending task that captures `ctx`. -/
def runActs (ctx : Nat) : List AsyncAct → LoopState → LoopState
  | [], s => s
  | .emitLog :: rest, s =>
      runActs ctx rest { s with logs := s.logs ++ [(ctx, s.store.lookup ctx)] }
  | .schedule cont :: rest, s =>
      runActs ctx rest { s with tasks := s.tasks ++ [⟨ctx, cont⟩] }

/-- One event-loop step: pick any pending continuation (arbitrary
interleaving), remove it from the queue, and run its actions in its
captured context. -/
inductive LoopStep : LoopState → LoopState → Prop
  | pick (s : LoopState) (i : Nat) (t : Task) (h : s.tasks[i]? = some t) :
      LoopStep s (runActs t.ctx t.acts { s with tasks := s.tasks.eraseIdx i })

/-- Middleware `requestIdMiddleware` handling one inbound request on the event loop:
`session.run` makes a fresh context `ctx` active, the resolved request

structure is stored in it (`session.set('requestId', ...)`), and `next()`
runs the handler's synchronous prefix inside that context. -/
def middlewareEnter (ctx : Nat) (uuidV4 : String) (header : HeaderValue)
    (handler : List AsyncAct) (s : LoopState) : LoopState :=
  let requestStructure := resolveRequestStructure uuidV4 header
  runActs ctx handler { s with store := (ctx, requestStructure) :: s.store }

/-- Two concurrently in-flight requests A and B: both middlewares have run
(in fresh, distinct contexts `cA` and `cB`), their handlers' synchronous
prefixes have executed, and their asynchronous continuations are pending. -/
def initialTwoRequests (cA cB : Nat) (uA : String) (hvA : HeaderValue) (hA : List AsyncAct)
    (uB : String) (hvB : HeaderValue) (hB : List AsyncAct) : LoopState :=
  middlewareEnter cB uB hvB hB (middlewareEnter cA uA hvA hA ⟨[], [], []⟩)

/-- The isolation invariant for two in-flight requests: the store still
binds each request's context to its own identifier, every pending task runs
in one of the two contexts, and every emitted log tagged with a request's
context carries that request's identifier. -/
def LoopInv (cA cB : Nat) (ridA ridB : RequestIdentifier) (s : LoopState) : Prop :=
  s.store.lookup cA = some ridA ∧ s.store.lookup cB = some ridB ∧
  (∀ t ∈ s.tasks, t.ctx = cA ∨ t.ctx = cB) ∧
  (∀ e ∈ s.logs, (e.1 = cA → e.2 = some ridA) ∧ (e.1 = cB → e.2 = some ridB))

/-- The spec's description of the trace-header layout, stated independently
of the code: the first semicolon-delimited field of the header value. -/
def specFirstField (h : String) : String := (jsSplit ';' h).headD ""

/-- The spec's extraction target: the third hyphen-delimited segment of the
header's first semicolon-delimited field (empty when there is no third
segment). -/
def specThirdSegment (h : String) : String :=
  ((jsSplit '-' (specFirstField h))[2]?).getD ""

/-- The spec's well-formedness condition on a trace-header value: the first
semicolon-delimited field has at least three hyphen-delimited segments and
the third one is non-empty. -/
def wellFormedTrace (h : String) : Prop :=
  3 ≤ (jsSplit '-' (specFirstField h)).length ∧ specThirdSegment h ≠ ""

instance (h : String) : Decidable (wellFormedTrace h) := by
  unfold wellFormedTrace
  infer_instance

/-- View of `cloudWatchFormatter`'s `requestIdStr` local: a falsy
`requestId` (absent or empty) defaults to `no-request`. -/
def cwRequestIdStr (info : CWInfo) : String :=
  match info.requestId with
  | some s => if s ≠ "" then s else "no-request"
  | none => "no-request"

/-- View of `cloudWatchFormatter`'s `stackStr` local: a falsy `stack`
defaults to the empty string. -/
def cwStackStr (info : CWInfo) : String :=
  match info.stack with
  | some s => if s ≠ "" then s else ""
  | none => ""

/-- View of `cloudWatchFormatter`'s `restStr` local after the empty-object
replacement. -/
def cwRestStr (info : CWInfo) : String :=
  let restStr := jsonStringify (info.rest.filter (fun p => p.1 ≠ "_headers"))
  if restStr = "\x7b\x7d" then "" else restStr

/-- A concrete record whose `stack` ends in a trailing space. -/
def cwInfoStackSpace : CWInfo := ⟨"info", "m", "t", none, some "x ", none, []⟩

/-- A concrete record with a request ID, a stack trace, and one metadata
entry. -/
def cwInfoSample : CWInfo := ⟨"info", "m", "t", some "248c", some "ST", none, [("userId", "102")]⟩

/-- Running synchronous actions never touches the context store. -/
theorem runActs_store (c : Nat) (acts : List AsyncAct) (s : LoopState) :
    (runActs c acts s).store = s.store := by
  induction acts generalizing s with
  | nil => rfl
  | cons a rest ih => cases a <;> simp only [runActs] <;> exact ih _

/-- Every task pending after running actions in context `c` was already
pending, or was scheduled by those actions and captured `c`. -/
theorem runActs_tasks (c : Nat) (acts : List AsyncAct) (s : LoopState) :
    ∀ t ∈ (runActs c acts s).tasks, t ∈ s.tasks ∨ t.ctx = c := by
  induction acts generalizing s with
  | nil => exact fun t ht => Or.inl ht
  | cons a rest ih =>
    intro t ht
    cases a with
    | emitLog =>
      simp only [runActs] at ht
      have h2 := ih _ t ht
      exact h2
    | schedule cont =>
      simp only [runActs] at ht
      have h2 := ih _ t ht
      rcases h2 with h | h
      · rcases List.mem_append.mp h with h | h
        · exact Or.inl h
        · right
          simp only [List.mem_singleton] at h
          rw [h]
      · exact Or.inr h

/-- Every log present after running actions in context `c` was already
present, or was emitted by those actions: tagged `c` and carrying exactly
the store value visible in `c`. -/
theorem runActs_logs (c : Nat) (acts : List AsyncAct) (s : LoopState) :
    ∀ e ∈ (runActs c acts s).logs, e ∈ s.logs ∨ (e.1 = c ∧ e.2 = s.store.lookup c) := by
  induction acts generalizing s with
  | nil => exact fun e he => Or.inl he
  | cons a rest ih =>
    intro e he
    cases a with
    | emitLog =>
      simp only [runActs] at he
      have h2 := ih _ e he
      rcases h2 with h | h
      · rcases List.mem_append.mp h with h | h
        · exact Or.inl h
        · right
          simp only [List.mem_singleton] at h
          rw [h]
          exact ⟨rfl, rfl⟩
      · exact Or.inr h
    | schedule cont =>
      simp only [runActs] at he
      have h2 := ih _ e he
      rcases h2 with h | h
      · exact Or.inl h
      · exact Or.inr h

/-- Running actions in either request's context preserves the invariant. -/
theorem runActs_inv (cA cB : Nat) (ridA ridB : RequestIdentifier) (c : Nat)
    (hc : c = cA ∨ c = cB) (acts : List AsyncAct) (s : LoopState)
    (h : LoopInv cA cB ridA ridB s) : LoopInv cA cB ridA ridB (runActs c acts s) := by
  obtain ⟨h1, h2, h3, h4⟩ := h
  refine ⟨?_, ?_, ?_, ?_⟩
  · rw [runActs_store]; exact h1
  · rw [runActs_store]; exact h2
  · intro t ht
    rcases runActs_tasks c acts s t ht with hm | hm
    · exact h3 t hm
    · rw [hm]; exact hc
  · intro e he
    rcases runActs_logs c acts s e he with hm | hm
    · exact h4 e hm
    · obtain ⟨he1, he2⟩ := hm
      constructor
      · intro hA
        rw [he2]
        rw [he1] at hA
        rw [hA]
        exact h1
      · intro hB
        rw [he2]
        rw [he1] at hB
        rw [hB]
        exact h2

/-- One event-loop step preserves the invariant: the picked continuation
runs in the context it captured, which belongs to one of the two requests. -/
theorem loopStep_inv (cA cB : Nat) (ridA ridB : RequestIdentifier) (s s' : LoopState)
    (hstep : LoopStep s s') (h : LoopInv cA cB ridA ridB s) :
    LoopInv cA cB ridA ridB s' := by
  obtain ⟨h1, h2, h3, h4⟩ := h
  cases hstep with
  | pick i t hti =>
    have htmem : t ∈ s.tasks := by
      have := List.getElem?_eq_some.mp hti
      obtain ⟨hlt, hget⟩ := this
      rw [← hget]
      exact List.getElem_mem _
    refine runActs_inv cA cB ridA ridB t.ctx (h3 t htmem) t.acts _ ⟨h1, h2, ?_, h4⟩
    intro t' ht'
    exact h3 t' ((List.eraseIdx_sublist s.tasks i).mem ht')

/-- Unfolding lemma for `middlewareEnter`. -/
theorem middlewareEnter_def (ctx : Nat) (uuidV4 : String) (header : HeaderValue)
    (handler : List AsyncAct) (s : LoopState) :
    middlewareEnter ctx uuidV4 header handler s =
      runActs ctx handler
        { s with store := (ctx, resolveRequestStructure uuidV4 header) :: s.store } := rfl

/-- The invariant holds once both middlewares have run in distinct fresh
contexts. -/
theorem initialTwoRequests_inv (cA cB : Nat) (uA uB : String) (hvA hvB : HeaderValue)
    (hA hB : List AsyncAct) (hne : cA ≠ cB) :
    LoopInv cA cB (resolveRequestStructure uA hvA) (resolveRequestStructure uB hvB)
      (initialTwoRequests cA cB uA hvA hA uB hvB hB) := by
  have hbeq : (cA == cB) = false := by simp [hne]
  rw [initialTwoRequests, middlewareEnter_def, middlewareEnter_def]
  refine runActs_inv cA cB _ _ cB (Or.inr rfl) hB _ ⟨?_, ?_, ?_, ?_⟩
  · show List.lookup cA ((cB, _) :: _) = _
    rw [List.lookup]
    rw [hbeq]
    rw [runActs_store]
    simp [List.lookup]
  · show List.lookup cB ((cB, _) :: _) = _
    rw [List.lookup]
    simp
  · intro t ht
    left
    have h2 := runActs_tasks cA hA _ t ht
    rcases h2 with h | h
    · exact absurd h (List.not_mem_nil t)
    · exact h
  · intro e he
    have h2 := runActs_logs cA hA _ e he
    rcases h2 with h | h
    · exact absurd h (List.not_mem_nil e)
    · obtain ⟨h1, h2⟩ := h
      have h2' : e.2 = some (resolveRequestStructure uA hvA) := by
        rw [h2]
        simp [List.lookup]
      constructor
      · intro _
        exact h2'
      · intro hB'
        rw [h1] at hB'
        exact absurd hB' hne

/-- C1: for two concurrently in-flight requests A and B, under arbitrary
event-loop interleaving of their asynchronous continuations, every log
record emitted while A's logical context is active carries A's
RequestIdentifier — and, when the two identifiers differ, never B's. -/
theorem log_isolation_under_interleaving (cA cB : Nat) (uA uB : String)
    (hvA hvB : HeaderValue) (hA hB : List AsyncAct) (hne : cA ≠ cB) (s : LoopState)
    (hreach : Relation.ReflTransGen LoopStep (initialTwoRequests cA cB uA hvA hA uB hvB hB) s)
    (e : Nat × Option RequestIdentifier) (he : e ∈ s.logs) :
    (e.1 = cA → e.2 = some (resolveRequestStructure uA hvA)) ∧
    (e.1 = cB → e.2 = some (resolveRequestStructure uB hvB)) ∧
    (resolveRequestStructure uA hvA ≠ resolveRequestStructure uB hvB → e.1 = cA →
      e.2 ≠ some (resolveRequestStructure uB hvB)) := by
  have hinv : LoopInv cA cB (resolveRequestStructure uA hvA)
      (resolveRequestStructure uB hvB) s := by
    clear he
    induction hreach with
    | refl => exact initialTwoRequests_inv cA cB uA uB hvA hvB hA hB hne
    | tail _ hstep ih => exact loopStep_inv _ _ _ _ _ _ hstep ih
  obtain ⟨_, _, _, h4⟩ := hinv
  have hgood := h4 e he
  refine ⟨hgood.1, hgood.2, ?_⟩
  intro hdiff hA' hcontra
  have hvalA := hgood.1 hA'
  rw [hvalA] at hcontra
  exact hdiff (Option.some.inj hcontra)

/-- Witness for C1 at a concrete interleaved state: request A carries the
upstream identifier from its trace header, request B a generated one, and
the record logged in A's context is not tagged with B's identifier. -/
theorem log_isolation_under_interleaving_witness :
    ((0 : Nat),
      (some { from_ := .aws, id := "248c9268447e5e1b0b34ef82" } : Option RequestIdentifier)).2 ≠
      some (resolveRequestStructure "uB" HeaderValue.absent) := by
  have h := log_isolation_under_interleaving 0 1 "uA" "uB"
    (.str "Self=1-abc-248c9268447e5e1b0b34ef82") .absent
    [.emitLog, .schedule [.emitLog]] [.emitLog] (by decide) _ Relation.ReflTransGen.refl
    (0, some { from_ := .aws, id := "248c9268447e5e1b0b34ef82" }) (by decide)
  exact h.2.2 (by decide) rfl

/-- Truncating a split to its first two pieces does not change the first
piece. -/
theorem headD_take_two (l : List String) (d : String) : (l.take 2).headD d = l.headD d := by
  cases l <;> rfl

/-- Truncating a split to its first three pieces does not change the element
at index 2. -/
theorem getElem?_take_three (l : List String) : (l.take 3)[2]? = l[2]? := by
  rcases l with _ | ⟨a, _ | ⟨b, _ | ⟨c, t⟩⟩⟩ <;> simp

/-- Function `getRequestId` on a present, truthy header value computes exactly the
spec's extraction: index 2 of the hyphen-split of the first semicolon
field. -/
theorem getRequestId_eq_spec (hv : HeaderValue) (t : String) (hp : flatFirst hv = some t)
    (ht : t ≠ "") : getRequestId hv = (jsSplit '-' (specFirstField t))[2]? := by
  unfold getRequestId
  rw [hp]
  simp only [ht, ne_eq, not_false_eq_true, if_true]
  unfold jsSplitLimit specFirstField
  rw [headD_take_two, getElem?_take_three]

/-- A well-formed trace-header value is non-empty. -/
theorem wellFormedTrace_ne_empty (t : String) (hw : wellFormedTrace t) : t ≠ "" := by
  intro he
  rw [he] at hw
  exact absurd hw (by decide)

/-- The resolved structure for a well-formed upstream header: source tag
`aws` and the spec's third hyphen segment as the value. -/
theorem resolve_upstream (hv : HeaderValue) (t u : String)
    (hp : flatFirst hv = some t) (hw : wellFormedTrace t) :
    resolveRequestStructure u hv = { from_ := .aws, id := specThirdSegment t } := by
  have ht : t ≠ "" := wellFormedTrace_ne_empty t hw
  have hget := getRequestId_eq_spec hv t hp ht
  obtain ⟨hlen, hne3⟩ := hw
  have hlt : 2 < (jsSplit '-' (specFirstField t)).length := hlen
  have hx : (jsSplit '-' (specFirstField t))[2]? = some ((jsSplit '-' (specFirstField t))[2]) :=
    List.getElem?_eq_getElem hlt
  have hspec : specThirdSegment t = (jsSplit '-' (specFirstField t))[2] := by
    unfold specThirdSegment
    rw [hx]
    rfl
  unfold resolveRequestStructure
  rw [hget, hx, ← hspec]
  simp only [hne3, ne_eq, not_false_eq_true, if_true]

/-- C3: a present, well-formed `x-amzn-trace-id` header resolves to an
upstream identifier (tag `aws`) whose value is exactly the third
hyphen-delimited segment of the header's first semicolon-delimited field,
attached both to the context store under `"requestId"` and to the request
object's `requestId` field. -/
theorem middleware_upstream_header (hv : HeaderValue) (t u : String)
    (r0 : Option RequestIdentifier) (hp : flatFirst hv = some t) (hw : wellFormedTrace t) :
    (requestIdMiddlewareRun u { xAmznTraceId := hv, requestId := r0 }).1.requestId
        = some { from_ := .aws, id := specThirdSegment t } ∧
    (requestIdMiddlewareRun u { xAmznTraceId := hv, requestId := r0 }).2.requestId
        = some { from_ := .aws, id := specThirdSegment t } := by
  have hres := resolve_upstream hv t u hp hw
  unfold requestIdMiddlewareRun
  rw [hres]
  exact ⟨rfl, rfl⟩

/-- Witness for C3 on the spec's own example header. -/
theorem middleware_upstream_header_witness :
    (requestIdMiddlewareRun "u"
        { xAmznTraceId := .str "Self=1-abc-248c9268447e5e1b0b34ef82", requestId := none }).1.requestId
      = some { from_ := .aws, id := specThirdSegment "Self=1-abc-248c9268447e5e1b0b34ef82" } := by
  exact (middleware_upstream_header (.str "Self=1-abc-248c9268447e5e1b0b34ef82")
    "Self=1-abc-248c9268447e5e1b0b34ef82" "u" none rfl (by decide)).1

/-- C4: an absent header, or one whose first semicolon-delimited field has
fewer than three hyphen-delimited segments, resolves without raising to a
generated identifier (tag `int`) whose value is the freshly generated UUID
(the output of the external `uuid.v4()`, modelled by `u`). The middleware
and resolver are total Lean functions, so no error can be raised on any
input. -/
theorem resolve_generated_on_malformed (hv : HeaderValue) (u : String)
    (h : flatFirst hv = none ∨
      ∃ t, flatFirst hv = some t ∧ (jsSplit '-' (specFirstField t)).length < 3) :
    resolveRequestStructure u hv = { from_ := .int, id := u } := by
  rcases h with h | ⟨t, hp, hlen⟩
  · unfold resolveRequestStructure getRequestId
    rw [h]
  · by_cases ht : t = ""
    · rw [ht] at hp
      unfold resolveRequestStructure getRequestId
      rw [hp]
      simp
    · have hget := getRequestId_eq_spec hv t hp ht
      have hnone : (jsSplit '-' (specFirstField t))[2]? = none :=
        List.getElem?_eq_none (by omega)
      unfold resolveRequestStructure
      rw [hget, hnone]

/-- Witness for C4: an absent header and a malformed two-segment header both
yield the generated identifier. -/
theorem resolve_generated_on_malformed_witness :
    resolveRequestStructure "2ca17ddf" HeaderValue.absent
        = { from_ := .int, id := "2ca17ddf" } ∧
    resolveRequestStructure "2ca17ddf" (.str "Root=1-abc;Parent=x")
        = { from_ := .int, id := "2ca17ddf" } := by
  constructor
  · exact resolve_generated_on_malformed .absent "2ca17ddf" (Or.inl rfl)
  · exact resolve_generated_on_malformed (.str "Root=1-abc;Parent=x") "2ca17ddf"
      (Or.inr ⟨"Root=1-abc;Parent=x", rfl, by decide⟩)

/-- C8: when the trace header is repeated (an array of values), only the
first value is considered: extraction and resolution agree with a request
that carried just the first value, whatever the remaining values are. -/
theorem repeated_header_first_only (v : String) (rest : List String) (u : String) :
    getRequestId (.arr (v :: rest)) = getRequestId (.str v) ∧
    resolveRequestStructure u (.arr (v :: rest)) = resolveRequestStructure u (.str v) := by
  exact ⟨rfl, rfl⟩

/-- C10: a header whose first semicolon-delimited field ends in a trailing
hyphen has an empty third segment; the middleware treats it like an absent
header and resolves a generated identifier with the fresh UUID. -/
theorem resolve_generated_on_empty_third (hv : HeaderValue) (t u : String)
    (hp : flatFirst hv = some t)
    (h3 : (jsSplit '-' (specFirstField t))[2]? = some "") :
    resolveRequestStructure u hv = { from_ := .int, id := u } := by
  have ht : t ≠ "" := by
    intro he
    rw [he] at h3
    exact absurd h3 (by decide)
  have hget := getRequestId_eq_spec hv t hp ht
  unfold resolveRequestStructure
  rw [hget, h3]
  simp

/-- Witness for C10 on the trailing-hyphen example `Self=1-abc-`. -/
theorem resolve_generated_on_empty_third_witness :
    resolveRequestStructure "2ca17ddf" (.str "Self=1-abc-")
        = { from_ := .int, id := "2ca17ddf" } := by
  exact resolve_generated_on_empty_third (.str "Self=1-abc-") "Self=1-abc-" "2ca17ddf"
    rfl (by decide)

/-- The formatter never mutates the session: it only reads the context
store. -/
theorem requestIdFormatter_fst (s : Session) (o : Option RequestIDFormatterOptions)
    (i : LogInfo) : (requestIdFormatter s o i).1 = s := by
  obtain ⟨a, rid⟩ := s
  cases a <;> cases rid <;> cases o <;> simp [requestIdFormatter]

/-- Under the default `addToMessage = false`, the formatter records exactly
the display string computed from the session. -/
theorem requestIdFormatter_false_requestIdString (s : Session) (i : LogInfo) :
    (requestIdFormatter s (some { addToMessage := false }) i).2.requestIdString
      = some (requestIdStringOf s) := by
  obtain ⟨a, rid⟩ := s
  cases a <;> cases rid <;> simp [requestIdFormatter, requestIdStringOf]

/-- Counterexample to C2 as stated: with `addToMessage = true`, an active
context and a stored identifier, the formatter does attach the structured
`requestId` metadata field to a fresh record (it is not left absent). -/
theorem formatter_addToMessage_attaches_structure :
    ¬ ((requestIdFormatter { active := true, requestId := some { from_ := .aws, id := "abc" } }
          (some { addToMessage := true })
          { message := "m", requestId := none, requestIdString := none }).2.requestId = none) := by
  decide

/-- C2 (amended): with `addToMessage = true` and an active context holding
an identifier, the formatter prepends exactly the display string followed by
one space to the message and leaves the `requestIdString` field alone — but
it does attach the full identifier structure under the `requestId` metadata
field. -/
theorem formatter_addToMessage_prepends (s : Session) (r : RequestIdentifier) (i : LogInfo)
    (hact : s.active = true) (hrid : s.requestId = some r) :
    ((requestIdFormatter s (some { addToMessage := true }) i).2.message
        = requestIdStringOf s ++ " " ++ i.message) ∧
    (requestIdStringOf s = "[" ++ r.from_.str ++ ":" ++ r.id ++ "]") ∧
    ((requestIdFormatter s (some { addToMessage := true }) i).2.requestId = some r) ∧
    ((requestIdFormatter s (some { addToMessage := true }) i).2.requestIdString
        = i.requestIdString) := by
  obtain ⟨a, rid⟩ := s
  simp only at hact hrid
  rw [hact, hrid]
  simp [requestIdFormatter, requestIdStringOf]

/-- Witness for C2's amended statement at a concrete record. -/
theorem formatter_addToMessage_prepends_witness :
    ((requestIdFormatter { active := true, requestId := some { from_ := .aws, id := "abc" } }
        (some { addToMessage := true })
        { message := "m", requestId := none, requestIdString := none }).2.message
      = requestIdStringOf { active := true, requestId := some { from_ := .aws, id := "abc" } }
          ++ " " ++ "m") ∧
    ((requestIdFormatter { active := true, requestId := some { from_ := .aws, id := "abc" } }
        (some { addToMessage := true })
        { message := "m", requestId := none, requestIdString := none }).2.requestId
      = some { from_ := .aws, id := "abc" }) := by
  have h := formatter_addToMessage_prepends
    { active := true, requestId := some { from_ := .aws, id := "abc" } }
    { from_ := .aws, id := "abc" }
    { message := "m", requestId := none, requestIdString := none } rfl rfl
  exact ⟨h.1, h.2.2.1⟩

/-- C5: with no active logical context the formatter yields the
`[no-request]` display, leaves the `requestId` metadata untouched (absent on
a fresh record), and — being a total function — never fails or blocks; with
`addToMessage` absent or false the message is also left unchanged. -/
theorem formatter_no_context (s : Session) (o : Option RequestIDFormatterOptions)
    (i : LogInfo) (hact : s.active = false) :
    ((requestIdFormatter s o i).2.requestId = i.requestId) ∧
    ((o = none ∨ o = some { addToMessage := false }) →
      (requestIdFormatter s o i).2.requestIdString = some "[no-request]" ∧
      (requestIdFormatter s o i).2.message = i.message) ∧
    (o = some { addToMessage := true } →
      (requestIdFormatter s o i).2.message = "[no-request]" ++ " " ++ i.message) := by
  obtain ⟨a, rid⟩ := s
  simp only at hact
  rw [hact]
  refine ⟨?_, ?_, ?_⟩
  · cases o with
    | none => simp [requestIdFormatter]
    | some opt =>
      obtain ⟨b⟩ := opt
      cases b <;> simp [requestIdFormatter]
  · rintro (ho | ho) <;> rw [ho] <;> simp [requestIdFormatter]
  · intro ho
    rw [ho]
    simp [requestIdFormatter]

/-- Witness for C5 on a fresh record outside any context. -/
theorem formatter_no_context_witness :
    ((requestIdFormatter { active := false, requestId := none } none
        { message := "m", requestId := none, requestIdString := none }).2.requestId = none) ∧
    ((requestIdFormatter { active := false, requestId := none } none
        { message := "m", requestId := none, requestIdString := none }).2.requestIdString
      = some "[no-request]") := by
  have h := formatter_no_context { active := false, requestId := none } none
    { message := "m", requestId := none, requestIdString := none } rfl
  exact ⟨h.1, (h.2.1 (Or.inl rfl)).1⟩

/-- C6: with options absent or `addToMessage = false` and an active context
holding an identifier, the formatter leaves the message unchanged and
attaches the full identifier structure as the `requestId` metadata field. -/
theorem formatter_default_attaches_metadata (s : Session) (r : RequestIdentifier)
    (o : Option RequestIDFormatterOptions) (i : LogInfo)
    (ho : o = none ∨ o = some { addToMessage := false })
    (hact : s.active = true) (hrid : s.requestId = some r) :
    ((requestIdFormatter s o i).2.message = i.message) ∧
    ((requestIdFormatter s o i).2.requestId = some r) := by
  obtain ⟨a, rid⟩ := s
  simp only at hact hrid
  rw [hact, hrid]
  rcases ho with ho | ho <;> rw [ho] <;> simp [requestIdFormatter]

/-- Witness for C6 at a concrete record, with options absent. -/
theorem formatter_default_attaches_metadata_witness :
    ((requestIdFormatter { active := true, requestId := some { from_ := .int, id := "2ca17ddf" } }
        none { message := "m", requestId := none, requestIdString := none }).2.message = "m") ∧
    ((requestIdFormatter { active := true, requestId := some { from_ := .int, id := "2ca17ddf" } }
        none { message := "m", requestId := none, requestIdString := none }).2.requestId
      = some { from_ := .int, id := "2ca17ddf" }) := by
  exact formatter_default_attaches_metadata
    { active := true, requestId := some { from_ := .int, id := "2ca17ddf" } }
    { from_ := .int, id := "2ca17ddf" } none
    { message := "m", requestId := none, requestIdString := none } (Or.inl rfl) rfl rfl

/-- C7: formatting never mutates the session (so the stored identifier is
unchanged), and two successive applications of the formatter within the same
context compute the same display string, recorded identically by both
applications under the default options. -/
theorem formatter_idempotent_display (s : Session) (o : Option RequestIDFormatterOptions)
    (i : LogInfo) :
    ((requestIdFormatter s o i).1 = s) ∧
    ((requestIdFormatter (requestIdFormatter s o i).1 o (requestIdFormatter s o i).2).1 = s) ∧
    ((requestIdFormatter s (some { addToMessage := false }) i).2.requestIdString
        = some (requestIdStringOf s)) ∧
    ((requestIdFormatter (requestIdFormatter s (some { addToMessage := false }) i).1
        (some { addToMessage := false })
        (requestIdFormatter s (some { addToMessage := false }) i).2).2.requestIdString
      = some (requestIdStringOf s)) := by
  refine ⟨requestIdFormatter_fst s o i, ?_, requestIdFormatter_false_requestIdString s i, ?_⟩
  · rw [requestIdFormatter_fst, requestIdFormatter_fst]
  · rw [requestIdFormatter_fst]
    exact requestIdFormatter_false_requestIdString s _

/-- Unfolding of `cloudWatchFormatter` in terms of its three views. -/
theorem cloudWatchFormatter_eq (info : CWInfo) :
    cloudWatchFormatter info
      = jsTrim (info.timestamp ++ " [" ++ cwRequestIdStr info ++ "] " ++ info.level ++ ": "
          ++ info.message ++ " " ++ cwRestStr info ++ "\n" ++ cwStackStr info) := rfl

/-- Action of `jsTrim` on the underlying character list. -/
theorem jsTrim_data (s : String) :
    (jsTrim s).data
      = ((s.data.dropWhile jsWhitespace).reverse.dropWhile jsWhitespace).reverse := rfl

/-- A list containing a non-whitespace character does not drop to nothing. -/
theorem dropWhile_ws_ne_nil (l : List Char) (x : Char) (hx : x ∈ l)
    (hpx : jsWhitespace x = false) : l.dropWhile jsWhitespace ≠ [] := by
  intro h
  have := List.dropWhile_eq_nil_iff.mp h x hx
  rw [hpx] at this
  exact Bool.false_ne_true this

/-- The rendered prefix of the CloudWatch line always contains the
non-whitespace character `[`. -/
theorem mem_bracket_data (t r l m : String) :
    '[' ∈ (t ++ " [" ++ r ++ "] " ++ l ++ ": " ++ m ++ " ").data := by
  have h : '[' ∈ (" [" : String).data := by decide
  simp only [String.data_append, List.mem_append]
  tauto

/-- Trimming `A ++ B` keeps `B` intact when `A` contains a non-whitespace
character and `B` is non-empty with a non-whitespace last character. -/
theorem trim_append_keep (A B : List Char)
    (hA : A.dropWhile jsWhitespace ≠ [])
    (hBne : B ≠ [])
    (hB : B.reverse.dropWhile jsWhitespace = B.reverse) :
    (((A ++ B).dropWhile jsWhitespace).reverse.dropWhile jsWhitespace).reverse
      = A.dropWhile jsWhitespace ++ B := by
  have hBrev : B.reverse ≠ [] := by simpa using hBne
  rw [List.dropWhile_append, if_neg (by simpa using hA)]
  rw [List.reverse_append, List.dropWhile_append, hB, if_neg (by simpa using hBrev)]
  rw [List.reverse_append, List.reverse_reverse, List.reverse_reverse]

/-- Trimming `A ++ R ++ B` keeps `R` as an infix when `A` contains a
non-whitespace character and `R` ends in a non-whitespace character. -/
theorem trim_middle_infix (A R B : List Char)
    (hA : A.dropWhile jsWhitespace ≠ [])
    (hR : ∃ r t, R.reverse = r :: t ∧ jsWhitespace r = false) :
    R <:+: (((A ++ R ++ B).dropWhile jsWhitespace).reverse.dropWhile
        jsWhitespace).reverse := by
  obtain ⟨r, t, hrev, hws⟩ := hR
  have hdropR : ∀ X : List Char,
      (R.reverse ++ X).dropWhile jsWhitespace = R.reverse ++ X := by
    intro X
    rw [hrev, List.cons_append, List.dropWhile_cons_of_neg (by simp [hws])]
  rw [List.append_assoc, List.dropWhile_append, if_neg (by simpa using hA)]
  rw [List.reverse_append, List.reverse_append, List.append_assoc, List.dropWhile_append]
  by_cases hBcase : (B.reverse.dropWhile jsWhitespace).isEmpty
  · rw [if_pos hBcase, hdropR, List.reverse_append, List.reverse_reverse,
      List.reverse_reverse]
    exact List.IsSuffix.isInfix (List.suffix_append _ R)
  · rw [if_neg hBcase, ← List.append_assoc, List.reverse_append, List.reverse_append,
      List.reverse_reverse, List.reverse_reverse]
    exact List.IsInfix.trans ( List.IsPrefix.isInfix (List.prefix_append R _))
      ( List.IsSuffix.isInfix (List.suffix_append _ _))

/-- The serialized member list of a non-empty bag starts with a quote. -/
theorem jsonItem_data (p : String × String) :
    (jsonItem p).data = '\x22' :: (p.1.data ++ ("\x22:" : String).data ++ p.2.data) := by
  unfold jsonItem
  simp only [String.data_append]
  simp

/-- A non-empty bag has a non-empty serialized member list. -/
theorem jsonMembers_cons_data_ne_nil (p : String × String) (ps : List (String × String)) :
    (jsonMembers (p :: ps)).data ≠ [] := by
  cases ps with
  | nil =>
    rw [show jsonMembers [p] = jsonItem p from rfl, jsonItem_data]
    exact List.cons_ne_nil _ _
  | cons q qs =>
    rw [show jsonMembers (p :: q :: qs) = jsonItem p ++ "," ++ jsonMembers (q :: qs) from rfl]
    simp only [String.data_append, jsonItem_data]
    simp

/-- The serialized object is an opening brace, the members, and a closing
brace. -/
theorem jsonStringify_data (l : List (String × String)) :
    (jsonStringify l).data = '\x7b' :: ((jsonMembers l).data ++ ['\x7d']) := by
  unfold jsonStringify
  simp only [String.data_append]
  simp

/-- A non-empty bag never serializes to the empty object text. -/
theorem jsonStringify_cons_ne_braces (p : String × String) (ps : List (String × String)) :
    jsonStringify (p :: ps) ≠ "\x7b\x7d" := by
  intro h
  have hd := congrArg String.data h
  rw [jsonStringify_data,
    show ("\x7b\x7d" : String).data = ['\x7b', '\x7d'] from by decide] at hd
  simp at hd
  exact jsonMembers_cons_data_ne_nil p ps hd

/-- Counterexample to C9 as stated: a record whose `stack` ends in a space
is not appended verbatim — the final trim removes the trailing whitespace,
so the stack contents are not a suffix of the rendered line. -/
theorem cloudWatch_stack_not_verbatim :
    cloudWatchFormatter cwInfoStackSpace = "t [no-request] info: m \nx" ∧
    ¬ (("x " : String).data <:+ (cloudWatchFormatter cwInfoStackSpace).data) := by
  decide

/-- C9 (amended): the `_headers` key is excluded from the serialized
metadata remainder; a present `stack` is appended after the newline,
verbatim whenever its last character is not whitespace (the final trim
removes trailing whitespace); and the remaining metadata keys are
serialized and included only when the trimmed bag is non-empty. -/
theorem cloudWatchFormatter_fields (info : CWInfo) :
    (∀ v, cloudWatchFormatter { info with rest := ("_headers", v) :: info.rest }
        = cloudWatchFormatter info) ∧
    (∀ s c, info.stack = some s → s.data.getLast? = some c → jsWhitespace c = false →
      ('\n' :: s.data) <:+ (cloudWatchFormatter info).data) ∧
    (info.rest.filter (fun p => p.1 ≠ "_headers") = [] → cwRestStr info = "") ∧
    (info.rest.filter (fun p => p.1 ≠ "_headers") ≠ [] →
      cwRestStr info = jsonStringify (info.rest.filter (fun p => p.1 ≠ "_headers")) ∧
      (cwRestStr info).data <:+: (cloudWatchFormatter info).data) := by
  refine ⟨?_, ?_, ?_, ?_⟩
  · intro v
    have hfil : (("_headers", v) :: info.rest).filter (fun p => p.1 ≠ "_headers")
        = info.rest.filter (fun p => p.1 ≠ "_headers") := by
      rw [List.filter_cons]
      simp
    rw [cloudWatchFormatter_eq, cloudWatchFormatter_eq]
    have hrest : cwRestStr { info with rest := ("_headers", v) :: info.rest }
        = cwRestStr info := by
      simp only [cwRestStr]
      rw [hfil]
    rw [hrest]
    rfl
  · intro s c hstack hlast hws
    have hsne : s.data ≠ [] := by
      intro h0
      rw [h0] at hlast
      exact absurd hlast (by simp)
    have hstackStr : cwStackStr info = s := by
      unfold cwStackStr
      rw [hstack]
      have hse : s ≠ "" := by
        intro h0
        rw [h0] at hsne
        exact hsne rfl
      simp [hse]
    have hrevc : ∃ tl, s.data.reverse = c :: tl := by
      rw [List.getLast?_eq_head?_reverse] at hlast
      cases hr : s.data.reverse with
      | nil => rw [hr] at hlast; exact absurd hlast (by simp)
      | cons a tl =>
        rw [hr] at hlast
        simp at hlast
        exact ⟨tl, by rw [hlast]⟩
    obtain ⟨tl, htl⟩ := hrevc
    rw [cloudWatchFormatter_eq, hstackStr, jsTrim_data]
    have hT : (info.timestamp ++ " [" ++ cwRequestIdStr info ++ "] " ++ info.level ++ ": "
        ++ info.message ++ " " ++ cwRestStr info ++ "\n" ++ s).data
        = (info.timestamp ++ " [" ++ cwRequestIdStr info ++ "] " ++ info.level ++ ": "
            ++ info.message ++ " " ++ cwRestStr info).data ++ ('\n' :: s.data) := by
      simp only [String.data_append]
      simp
    rw [hT]
    have hbr : '[' ∈ (info.timestamp ++ " [" ++ cwRequestIdStr info ++ "] " ++ info.level
        ++ ": " ++ info.message ++ " " ++ cwRestStr info).data := by
      rw [String.data_append]
      exact List.mem_append_left _ (mem_bracket_data _ _ _ _)
    rw [trim_append_keep _ _ (dropWhile_ws_ne_nil _ '[' hbr (by decide))
      (List.cons_ne_nil _ _) ?hkeep]
    case hkeep =>
      rw [List.reverse_cons, htl, List.cons_append, List.dropWhile_cons_of_neg (by simp [hws])]
    exact List.suffix_append _ _
  · intro hfil
    unfold cwRestStr
    rw [hfil]
    decide
  · intro hfil
    obtain ⟨q, qs, hl⟩ := List.exists_cons_of_ne_nil hfil
    have hcw : cwRestStr info = jsonStringify (info.rest.filter (fun p => p.1 ≠ "_headers")) := by
      unfold cwRestStr
      rw [hl, if_neg (jsonStringify_cons_ne_braces q qs)]
    refine ⟨hcw, ?_⟩
    rw [cloudWatchFormatter_eq, jsTrim_data]
    have hT : (info.timestamp ++ " [" ++ cwRequestIdStr info ++ "] " ++ info.level ++ ": "
        ++ info.message ++ " " ++ cwRestStr info ++ "\n" ++ cwStackStr info).data
        = (info.timestamp ++ " [" ++ cwRequestIdStr info ++ "] " ++ info.level ++ ": "
            ++ info.message ++ " ").data ++ (cwRestStr info).data
          ++ ('\n' :: (cwStackStr info).data) := by
      simp only [String.data_append]
      simp
    rw [hT]
    apply trim_middle_infix
    · exact dropWhile_ws_ne_nil _ '[' (mem_bracket_data _ _ _ _) (by decide)
    · refine ⟨'\x7d', (jsonMembers (q :: qs)).data.reverse ++ ['\x7b'], ?_, by decide⟩
      rw [hcw, hl, jsonStringify_data, List.reverse_cons, List.reverse_append]
      simp

/-- Witness for C9's amended statement on a concrete record carrying
`_headers`, a stack trace, and a metadata entry. -/
theorem cloudWatchFormatter_fields_witness :
    (cloudWatchFormatter { cwInfoSample with rest := ("_headers", "h") :: cwInfoSample.rest }
      = cloudWatchFormatter cwInfoSample) ∧
    (('\n' :: ("ST" : String).data) <:+ (cloudWatchFormatter cwInfoSample).data) ∧
    ((cwRestStr cwInfoSample).data <:+: (cloudWatchFormatter cwInfoSample).data) := by
  have h := cloudWatchFormatter_fields cwInfoSample
  exact ⟨h.1 "h", h.2.1 "ST" 'T' rfl (by decide) (by decide), (h.2.2.2 (by decide)).2⟩

/- Sanity checks on the JS string model. -/
example : jsSplit ';' "a;;b" = ["a", "", "b"] := by decide

example : jsSplit ';' "" = [""] := by decide

example : jsSplitLimit '-' 3 "a-b-c-d" = ["a", "b", "c"] := by decide

example : getRequestId (.str "Self=1-abc-248c9268447e5e1b0b34ef82")
    = some "248c9268447e5e1b0b34ef82" := by decide

example : getRequestId (.str "Self=1-abc-") = some "" := by decide

example : getRequestId (.str "Root=1-abc") = none := by decide

example : getRequestId .absent = none := by decide

example : resolveRequestStructure "u" (.str "Self=1-abc-") = { from_ := .int, id := "u" } := by
  decide

end Slipstream
